import Mathlib

/-!
Shallow embedding of `src/social_media_scheduler.py` (a single-operator
social-media content scheduler) and verification of the frozen claims
about it.

Modelling conventions:
  * Python strings are Lean `String`s; slicing `s[:n]` is `pyTake`,
    `s.strip()` is `pyStrip`, `sep.join(l)` is `pyJoin`,
    `s.split("|||")` is `splitTriplePipe` on the character list.
    All are character-based, as in Python.
  * The external Twitter adapter (tweepy) is modelled by `TwitterEnv`:
    `clientOk` says whether `get_twitter_client` yields a client, and
    `postResult k` gives the outcome of the k-th `update_status` call
    made inside one publish routine (`Except.ok id` for a tweet whose
    `id_str` is `id`, `Except.error e` for a raised exception rendered
    as the string `e`).  Every adapter interaction is recorded in a
    trace of `AdapterEvent`s (client initialisation, standalone post,
    the fixed `time.sleep(1)` delay, reply post).
  * The three append-only CSV ledgers are modelled as lists of records
    produced by a call; timestamps (`datetime.now()`) are not modelled.
  * `datetime.strptime(%Y-%m-%d)` date parsing is abstracted as a
    parameter `pd : String → Option Nat` (a date is identified with an
    abstract ordinal; only parse success and equality with "today" are
    ever used by the program).
-/

namespace SMS

/-- Python `s[:n]` on a string (character-based slice), from
`content[:277]`, `content[:100]` in the source. -/
def pyTake (s : String) (n : Nat) : String := ⟨s.toList.take n⟩

/-- Python `x or d` for an optional string `x`: `None` and the empty
string are falsy, from `post_id or "N/A"` in `log_success`. -/
def pyOr (x : Option String) (d : String) : String :=
  match x with
  | none => d
  | some s => if s = "" then d else s

/-- Python `sep.join(l)`, from `",".join(ids_or_error)` in `safe_publish`. -/
def pyJoin (sep : String) : List String → String
  | [] => ""
  | [x] => x
  | x :: xs => x ++ sep ++ pyJoin sep xs

/-- Remove trailing whitespace characters (the right half of Python
`str.strip`). -/
def stripRight : List Char → List Char
  | [] => []
  | c :: rest =>
    match stripRight rest with
    | [] => if c.isWhitespace then [] else [c]
    | r => c :: r

/-- Python `str.strip()` on the character list: drop leading and
trailing whitespace. -/
def pyStripL (l : List Char) : List Char :=
  stripRight (l.dropWhile Char.isWhitespace)

/-- Python `str.strip()` on a string. -/
def pyStrip (s : String) : String := ⟨pyStripL s.toList⟩

/-- Python `s.split("|||")`: split on each leftmost, non-overlapping
occurrence of three consecutive pipe characters. -/
def splitTriplePipe : List Char → List (List Char)
  | '|' :: '|' :: '|' :: rest => [] :: splitTriplePipe rest
  | c :: rest =>
    match splitTriplePipe rest with
    | [] => [[c]]
    | p :: ps => (c :: p) :: ps
  | [] => [[]]

/-- `[part.strip() for part in content.split("|||") if part.strip()]`
at the character-list level (used by `safe_publish` and by the
validator). -/
def splitThreadL (l : List Char) : List (List Char) :=
  ((splitTriplePipe l).map pyStripL).filter (fun p => p ≠ [])

/-- The same thread splitting, producing strings. -/
def splitThread (content : String) : List String :=
  (splitThreadL content.toList).map (fun l => (⟨l⟩ : String))

/-- The truncation applied before every `update_status` call:
`if len(content) > 280: content = content[:277] + "..."`. -/
def truncate (content : String) : String :=
  if 280 < content.length then pyTake content 277 ++ "..." else content

/-- One observable interaction with the external platform adapter. -/
inductive AdapterEvent where
  | clientInit
  | post (text : String)
  | sleep
  | reply (text : String) (inReplyTo : Option String)
deriving DecidableEq

/-- Model of the external Twitter side: whether `get_twitter_client`
returns a client, and the outcome of each `update_status` call (indexed
by its position within one publish routine). -/
structure TwitterEnv where
  clientOk : Bool
  postResult : Nat → Except String String

/-- A row appended to `success_log.csv` (timestamp omitted). -/
structure SuccessRecord where
  platform : String
  contentPreview : String
  statusLabel : String
  postId : String
deriving DecidableEq

/-- A row appended to `error_log.csv` (timestamp omitted). -/
structure ErrorRecord where
  platform : String
  contentPreview : String
  errorMessage : String
  resolved : String
deriving DecidableEq

/-- `log_success(platform, content, post_id)` from the source: writes
`[now, platform, content[:100], "Posted ✅", post_id or "N/A"]`. -/
def log_success (platform content : String) (post_id : Option String) : SuccessRecord :=
  ⟨platform, pyTake content 100, "Posted ✅", pyOr post_id "N/A"⟩

/-- `log_error(platform, content, error_message)` from the source: writes
`[now, platform, content[:100], error_message, "No"]`. -/
def log_error (platform content error_message : String) : ErrorRecord :=
  ⟨platform, pyTake content 100, error_message, "No"⟩

/-- `publish_tweet(content, dry_run)` from the source.  Returns the
Python pair `(status, id_or_error)` (`status` one of `"dry_run"`,
`"success"`, `"error"`) together with the adapter trace. -/
def publish_tweet (env : TwitterEnv) (content : String) (dry_run : Bool) :
    (String × Option String) × List AdapterEvent :=
  if dry_run then (("dry_run", none), [])
  else if !env.clientOk then
    (("error", some "Twitter client not initialized"), [.clientInit])
  else
    let text := truncate content
    match env.postResult 0 with
    | .ok id => (("success", some id), [.clientInit, .post text])
    | .error e => (("error", some e), [.clientInit, .post text])

/-- The loop body of `publish_thread`: iterate over the remaining
contents with running index `i` and `previous_tweet_id`; the first part
(`i = 0`) is a standalone `update_status`, every later part sleeps one
unit and is posted `in_reply_to` the previous part's id.  Any raised
exception aborts the loop with the error text. -/
def threadLoopIds (env : TwitterEnv) :
    List String → Nat → Option String → Except String (List String) × List AdapterEvent
  | [], _, _ => (.ok [], [])
  | content :: rest, i, prev =>
    let text := truncate content
    let ev : List AdapterEvent :=
      if i = 0 then [.post text] else [.sleep, .reply text prev]
    match env.postResult i with
    | .error e => (.error e, ev)
    | .ok id =>
      let (r, tr) := threadLoopIds env rest (i + 1) (some id)
      (r.map (fun ids => id :: ids), ev ++ tr)

/-- The second component of `publish_thread`'s Python return pair: a
list of tweet ids on success, the stringified exception on failure,
`None` for a dry run. -/
inductive ThreadPayload where
  | noneP
  | ids (l : List String)
  | err (e : String)
deriving DecidableEq

/-- `publish_thread(contents, dry_run)` from the source.  Returns the
Python pair `(results, ids_or_error)` together with the adapter trace. -/
def publish_thread (env : TwitterEnv) (contents : List String) (dry_run : Bool) :
    (List String × ThreadPayload) × List AdapterEvent :=
  if dry_run then ((List.replicate contents.length "dry_run", .noneP), [])
  else if !env.clientOk then
    ((["error"], .err "Twitter client not initialized"), [.clientInit])
  else
    match threadLoopIds env contents 0 none with
    | (.ok tweet_ids, tr) =>
      ((List.replicate contents.length "success", .ids tweet_ids), .clientInit :: tr)
    | (.error e, tr) => ((["error"], .err e), .clientInit :: tr)

/-- How Python renders `ids_or_error` inside
`f"Thread posting failed: {ids_or_error}"`.  On every path that reaches
that f-string the payload is the error string; the other constructors
are unreachable there and rendered loosely. -/
def payloadText : ThreadPayload → String
  | .err e => e
  | .ids l => pyJoin "," l
  | .noneP => "None"

/-- How Python renders `id_or_error` inside
`f"Tweet posting failed: {id_or_error}"`. -/
def optText : Option String → String
  | some s => s
  | none => "None"

/-- The result of one `safe_publish` call: the returned status string,
the records appended to the success and error ledgers, and the adapter
trace. -/
structure PublishEffect where
  status : String
  success : List SuccessRecord
  errors : List ErrorRecord
  trace : List AdapterEvent
deriving DecidableEq

/-- `safe_publish(platform, content, row_index, dry_run)` from the
source, with its ledger side effects made explicit. -/
def safe_publish (env : TwitterEnv) (platform content : String)
    (_row_index : Nat) (dry_run : Bool) : PublishEffect :=
  if dry_run then
    { status := "Dry Run ✅", success := [], errors := [], trace := [] }
  else if platform = "X Thread" then
    let thread_parts := splitThread content
    if thread_parts.isEmpty then
      { status := "Error ❌ (will retry)", success := [],
        errors := [log_error platform content "Thread content is empty after splitting"],
        trace := [] }
    else
      let ((results, ids_or_error), tr) := publish_thread env thread_parts dry_run
      if results.contains "error" then
        { status := "Error ❌ (will retry)", success := [],
          errors := [log_error platform content
            ("Thread posting failed: " ++ payloadText ids_or_error)],
          trace := tr }
      else
        let post_id := match ids_or_error with
          | .ids l => pyJoin "," l
          | _ => "Unknown"
        { status := "Posted ✅",
          success := [log_success platform content (some post_id)],
          errors := [], trace := tr }
  else if platform = "X Tweet" then
    let ((result, id_or_error), tr) := publish_tweet env content dry_run
    if result = "error" then
      { status := "Error ❌ (will retry)", success := [],
        errors := [log_error platform content
          ("Tweet posting failed: " ++ optText id_or_error)],
        trace := tr }
    else
      let post_id := if result = "success" then optText id_or_error else "DryRun"
      { status := "Posted ✅",
        success := [log_success platform content (some post_id)],
        errors := [], trace := tr }
  else
    { status := "Error ❌ (will retry)", success := [],
      errors := [log_error platform content ("Unsupported platform: " ++ platform)],
      trace := [] }

/-- The per-part warning loop of the validator:
`for j, part in enumerate(parts): if len(part) > 280: warn`. -/
def partWarnings (i : Nat) : List String → Nat → List String
  | [], _ => []
  | p :: ps, j =>
    (if 280 < p.length then
      let j1 := j + 1
      let n := p.length
      [s!"Row {i}, Thread part {j1}: Exceeds 280 characters ({n})"]
     else []) ++ partWarnings i ps (j + 1)

/-- The body of the `validate_content_calendar` loop for one row.
`pd` abstracts `datetime.strptime(date_planned, "%Y-%m-%d")` (parse
success only is used here); `i` is the 1-based row number offset by the
header row.  Returns `(errors, warnings)` for this row. -/
def validateRow (pd : String → Option Nat) (i : Nat) (row : List String) :
    List String × List String :=
  if row.length < 4 then ([s!"Row {i}: Insufficient columns"], [])
  else
    let date_planned := row.getD 0 ""
    let platform := row.getD 1 ""
    let content := row.getD 2 ""
    let valid_platforms : List String := ["X Tweet", "X Thread"]
    let e1 : List String :=
      match pd date_planned with
      | none => [s!"Row {i}: Invalid date format {date_planned}. Use YYYY-MM-DD"]
      | some _ => []
    let e2 : List String :=
      if valid_platforms.contains platform then []
      else [s!"Row {i}: Invalid platform {platform}. Must be one of [X Tweet, X Thread]"]
    let ew3 : List String × List String :=
      if pyStrip content = "" then ([s!"Row {i}: Content is empty"], [])
      else if platform = "X Tweet" ∧ 280 < content.length then
        let n := content.length
        ([], [s!"Row {i}: Tweet content exceeds 280 characters ({n})"])
      else if platform = "X Thread" then
        let parts := splitThread content
        ((if parts.isEmpty then [s!"Row {i}: Thread content is empty after splitting with |||"]
          else []),
         partWarnings i parts 0)
      else ([], [])
    (e1 ++ e2 ++ ew3.1, ew3.2)

/-- The row loop of `validate_content_calendar` starting at row number
`i` (the source enumerates from 2, past the header row). -/
def validateAux (pd : String → Option Nat) : List (List String) → Nat → List String × List String
  | [], _ => ([], [])
  | row :: rest, i =>
    let (e, w) := validateRow pd i row
    let (es, ws) := validateAux pd rest (i + 1)
    (e ++ es, w ++ ws)

/-- `validate_content_calendar(rows)` from the source: the ordered
`(errors, warnings)` lists over all data rows. -/
def validate_content_calendar (pd : String → Option Nat) (rows : List (List String)) :
    List String × List String :=
  validateAux pd rows 2

/-- The publish loop of `auto_schedule_publish` (`for i, row in
enumerate(rows, start=1)`): skips short rows and unparseable dates,
publishes rows whose status is literally `"Post Now"` and whose planned
date equals `today`, and overwrites field 3 of exactly those rows with
the returned status string.  `envs i` is the adapter environment seen
by the publish attempt for the row indexed `i`.  Returns the updated
rows and the concatenated ledger appends and adapter trace. -/
def processRows (pd : String → Option Nat) (today : Nat) (envs : Nat → TwitterEnv)
    (dry_run : Bool) :
    List (List String) → Nat →
      List (List String) × List SuccessRecord × List ErrorRecord × List AdapterEvent
  | [], _ => ([], [], [], [])
  | row :: rest, i =>
    let (rest', s, e, t) := processRows pd today envs dry_run rest (i + 1)
    if row.length < 4 then (row :: rest', s, e, t)
    else
      match pd (row.getD 0 "") with
      | none => (row :: rest', s, e, t)
      | some planned_date =>
        if row.getD 3 "" = "Post Now" ∧ planned_date = today then
          let eff := safe_publish (envs i) (row.getD 1 "") (row.getD 2 "") (i + 1) dry_run
          (row.set 3 eff.status :: rest', eff.success ++ s, eff.errors ++ e, eff.trace ++ t)
        else (row :: rest', s, e, t)

/-- The outcome of one `auto_schedule_publish` run over the data rows:
the persisted store contents, the ledger appends, the adapter trace,
and whether the run was blocked by validation errors. -/
structure RunResult where
  store : List (List String)
  success : List SuccessRecord
  errorsLog : List ErrorRecord
  trace : List AdapterEvent
  blocked : Bool
deriving DecidableEq

/-- The core of `auto_schedule_publish` from the source, from the point
where the data rows have been read: validate; if any errors, terminate
with the store untouched and nothing published; otherwise run the
publish loop and persist the updated rows.  (File bootstrapping, the
empty-file check, printing and the optional analytics pass are I/O glue
outside this model.) -/
def auto_schedule_publish (pd : String → Option Nat) (today : Nat)
    (envs : Nat → TwitterEnv) (dry_run : Bool) (rows : List (List String)) : RunResult :=
  let (errs, _warns) := validate_content_calendar pd rows
  if errs.isEmpty then
    let (rows', s, e, t) := processRows pd today envs dry_run rows 1
    ⟨rows', s, e, t, false⟩
  else
    ⟨rows, [], [], [], true⟩

/-! Specification-side definitions, used only to state properties. -/

/-- Does three-consecutive-pipes occur at the head of the list? -/
def startsTP (l : List Char) : Bool := decide (l.take 3 = ['|', '|', '|'])

/-- Does three-consecutive-pipes occur anywhere in the list? -/
def hasTP : List Char → Bool
  | [] => false
  | c :: rest => startsTP (c :: rest) || hasTP rest

/-- Does the list end with a pipe character? -/
def endsPipe (l : List Char) : Bool := decide (l.getLast? = some '|')

/-- `"|||".join` at the character-list level (specification side, for
stating the split/re-join property). -/
def joinCh : List (List Char) → List Char
  | [] => []
  | [p] => p
  | p :: ps => p ++ '|' :: '|' :: '|' :: joinCh ps

/-- The adapter-call trace the spec predicts for a thread whose `j`-th
`update_status` call returns id `idOf j`: the part at index 0 is a
standalone post, every later part is posted after one sleep as a reply
to the id of its immediate predecessor; each part is truncated
independently. -/
def chainTrace (idOf : Nat → String) : List String → Nat → List AdapterEvent
  | [], _ => []
  | c :: rest, i =>
    (if i = 0 then [AdapterEvent.post (truncate c)]
     else [AdapterEvent.sleep, AdapterEvent.reply (truncate c) (some (idOf (i - 1)))]) ++
    chainTrace idOf rest (i + 1)

/-- The texts actually handed to the platform by a trace (text of every
post and reply call, in order). -/
def postedTexts : List AdapterEvent → List String
  | [] => []
  | AdapterEvent.post t :: es => t :: postedTexts es
  | AdapterEvent.reply t _ :: es => t :: postedTexts es
  | _ :: es => postedTexts es

/-- The due-row condition of the scheduler loop: at least four fields,
the planned date parses to today, and the status field is literally
`"Post Now"`. -/
def isDue (pd : String → Option Nat) (today : Nat) (row : List String) : Prop :=
  4 ≤ row.length ∧ pd (row.getD 0 "") = some today ∧ row.getD 3 "" = "Post Now"

instance (pd : String → Option Nat) (today : Nat) (row : List String) :
    Decidable (isDue pd today row) := by
  unfold isDue
  infer_instance

/-! Helper lemmas. -/

theorem length_mk (l : List Char) : (String.mk l).length = l.length := rfl

theorem length_pyTake (s : String) (n : Nat) : (pyTake s n).length = min n s.length := by
  have h : (pyTake s n).length = (s.toList.take n).length := rfl
  rw [h, List.length_take]
  rfl

theorem truncate_long {c : String} (h : 280 < c.length) :
    truncate c = pyTake c 277 ++ "..." ∧ (truncate c).length = 280 := by
  refine ⟨by simp [truncate, h], ?_⟩
  rw [truncate, if_pos h, String.length_append, length_pyTake]
  have hm : min 277 c.length = 277 := by omega
  rw [hm]
  rfl

theorem truncate_short {c : String} (h : c.length ≤ 280) : truncate c = c := by
  rw [truncate, if_neg (by omega)]

theorem postedTexts_append (a b : List AdapterEvent) :
    postedTexts (a ++ b) = postedTexts a ++ postedTexts b := by
  induction a with
  | nil => rfl
  | cons e es ih => cases e <;> simp [postedTexts, ih]

theorem threadLoop_texts (env : TwitterEnv) :
    ∀ (rest : List String) (i : Nat) (prev : Option String),
    ∃ m, m ≤ rest.length ∧
      postedTexts (threadLoopIds env rest i prev).2 = (rest.take m).map truncate := by
  intro rest
  induction rest with
  | nil => intro i prev; exact ⟨0, by simp, rfl⟩
  | cons c rest ih =>
    intro i prev
    have hev : ∀ pv : Option String,
        postedTexts (if i = 0 then [AdapterEvent.post (truncate c)]
          else [AdapterEvent.sleep, AdapterEvent.reply (truncate c) pv]) = [truncate c] := by
      intro pv
      split <;> rfl
    cases hp : env.postResult i with
    | error e =>
      refine ⟨1, by simp, ?_⟩
      simp only [threadLoopIds, hp]
      rw [hev]
      rfl
    | ok id =>
      obtain ⟨m, hm, htx⟩ := ih (i + 1) (some id)
      refine ⟨m + 1, by simpa using hm, ?_⟩
      rcases hlt : threadLoopIds env rest (i + 1) (some id) with ⟨r, tr⟩
      rw [hlt] at htx
      simp only [threadLoopIds, hp, hlt]
      rw [postedTexts_append, hev]
      simp [htx]

theorem publish_thread_trace_texts (env : TwitterEnv) (parts : List String)
    (h : env.clientOk = true) :
    ∃ m, m ≤ parts.length ∧
      postedTexts (publish_thread env parts false).2 = (parts.take m).map truncate := by
  obtain ⟨m, hm, htx⟩ := threadLoop_texts env parts 0 none
  refine ⟨m, hm, ?_⟩
  unfold publish_thread
  rcases hlt : threadLoopIds env parts 0 none with ⟨r, tr⟩
  rw [hlt] at htx
  cases r <;> simp [h, hlt, postedTexts, htx]

theorem publish_tweet_trace (env : TwitterEnv) (c : String) (h : env.clientOk = true) :
    (publish_tweet env c false).2 = [.clientInit, .post (truncate c)] := by
  unfold publish_tweet
  cases hp : env.postResult 0 <;> simp [h, hp]

theorem threadLoop_ok (env : TwitterEnv) (idOf : Nat → String) :
    ∀ (rest : List String) (i : Nat) (prev : Option String),
    (∀ j, j < rest.length → env.postResult (i + j) = .ok (idOf (i + j))) →
    (i ≠ 0 → prev = some (idOf (i - 1))) →
    threadLoopIds env rest i prev =
      (.ok ((List.range rest.length).map (fun j => idOf (i + j))), chainTrace idOf rest i) := by
  intro rest
  induction rest with
  | nil =>
    intro i prev _ _
    simp [threadLoopIds, chainTrace]
  | cons c rest ih =>
    intro i prev hok hprev
    have h0 : env.postResult i = .ok (idOf i) := by simpa using hok 0 (by simp)
    have hrec := ih (i + 1) (some (idOf i))
      (fun j hj => by
        have hx := hok (j + 1) (by simp only [List.length_cons]; omega)
        rw [show i + (j + 1) = i + 1 + j by omega] at hx
        exact hx)
      (fun _ => by simp)
    simp only [threadLoopIds, h0, hrec]
    simp only [Prod.mk.injEq]
    refine ⟨?_, ?_⟩
    · -- returned ids are in posting order
      rw [List.length_cons, List.range_succ_eq_map, List.map_cons, List.map_map]
      simp only [Except.map, Nat.add_zero]
      congr 1
      congr 1
      apply List.map_congr_left
      intro j _
      simp only [Function.comp]
      congr 1
      omega
    · -- the trace is the chained-reply trace
      by_cases hi : i = 0
      · subst hi
        simp [chainTrace]
      · simp [chainTrace, hi, hprev hi]

theorem threadLoop_fail (env : TwitterEnv) (idOf : Nat → String) (e : String) :
    ∀ (rest : List String) (m i : Nat) (prev : Option String),
    m < rest.length →
    (∀ j, j < m → env.postResult (i + j) = .ok (idOf (i + j))) →
    env.postResult (i + m) = .error e →
    (i ≠ 0 → prev = some (idOf (i - 1))) →
    threadLoopIds env rest i prev = (.error e, chainTrace idOf (rest.take (m + 1)) i) := by
  intro rest
  induction rest with
  | nil =>
    intro m i prev hm
    simp at hm
  | cons c rest ih =>
    intro m i prev hm hok he hprev
    cases m with
    | zero =>
      have h0 : env.postResult i = .error e := by simpa using he
      simp only [threadLoopIds, h0]
      by_cases hi : i = 0
      · subst hi
        simp [chainTrace]
      · simp [chainTrace, hi, hprev hi]
    | succ m' =>
      have h0 : env.postResult i = .ok (idOf i) := by simpa using hok 0 (by omega)
      have hrec := ih m' (i + 1) (some (idOf i))
        (by simp only [List.length_cons] at hm; omega)
        (fun j hj => by
          have hx := hok (j + 1) (by omega)
          rw [show i + (j + 1) = i + 1 + j by omega] at hx
          exact hx)
        (by rw [show i + 1 + m' = i + (m' + 1) by omega]; exact he)
        (fun _ => by simp)
      simp only [threadLoopIds, h0, hrec]
      simp only [Except.map, List.take_succ_cons]
      by_cases hi : i = 0
      · subst hi
        simp [chainTrace]
      · simp [chainTrace, hi, hprev hi]

theorem publish_thread_fail (env : TwitterEnv) (parts : List String) (idOf : Nat → String)
    (e : String) (m : Nat) (hco : env.clientOk = true) (hm : m < parts.length)
    (hok : ∀ j, j < m → env.postResult j = .ok (idOf j))
    (he : env.postResult m = .error e) :
    publish_thread env parts false =
      ((["error"], .err e), .clientInit :: chainTrace idOf (parts.take (m + 1)) 0) := by
  have h := threadLoop_fail env idOf e parts m 0 none hm
    (fun j hj => by simpa using hok j hj) (by simpa using he) (fun hi => absurd rfl hi)
  unfold publish_thread
  rw [h]
  simp [hco]

theorem validateAux_fields (pd : String → Option Nat) :
    ∀ (rows : List (List String)) (i0 : Nat),
    (validateAux pd rows i0).1 = [] →
    ∀ row ∈ rows, 4 ≤ row.length ∧ ∃ dd, pd (row.getD 0 "") = some dd := by
  intro rows
  induction rows with
  | nil =>
    intro i0 _ row hrow
    simp at hrow
  | cons r rest ih =>
    intro i0 h row hrow
    have hsplit : (validateAux pd (r :: rest) i0).1 =
        (validateRow pd i0 r).1 ++ (validateAux pd rest (i0 + 1)).1 := rfl
    rw [hsplit, List.append_eq_nil] at h
    rcases List.mem_cons.mp hrow with hr | hr
    · subst hr
      by_cases hl : row.length < 4
      · exfalso
        have hbad : (validateRow pd i0 row).1 = [s!"Row {i0}: Insufficient columns"] := by
          simp only [validateRow, if_pos hl]
        rw [hbad] at h
        simp at h
      · have h4 : 4 ≤ row.length := by omega
        cases hpd : pd (row.getD 0 "") with
        | some dd => exact ⟨h4, dd, rfl⟩
        | none =>
          exfalso
          have h1 := h.1
          simp only [validateRow, if_neg hl] at h1
          rw [hpd] at h1
          simp at h1
    · exact ih (i0 + 1) h.2 row hr

theorem processRows_store (pd : String → Option Nat) (today : Nat) (envs : Nat → TwitterEnv)
    (dry_run : Bool) :
    ∀ (rows : List (List String)) (i k : Nat),
    (processRows pd today envs dry_run rows i).1[k]? =
      (rows[k]?).map (fun row =>
        if isDue pd today row then
          row.set 3 (safe_publish (envs (i + k)) (row.getD 1 "") (row.getD 2 "")
            (i + k + 1) dry_run).status
        else row) := by
  intro rows
  induction rows with
  | nil =>
    intro i k
    simp [processRows]
  | cons row rest ih =>
    intro i k
    have htail : ∀ k', ((processRows pd today envs dry_run rest (i + 1)).1)[k']? =
        (rest[k']?).map (fun r =>
          if isDue pd today r then
            r.set 3 (safe_publish (envs (i + (k' + 1))) (r.getD 1 "") (r.getD 2 "")
              (i + (k' + 1) + 1) dry_run).status
          else r) := by
      intro k'
      rw [ih (i + 1) k', show i + 1 + k' = i + (k' + 1) by omega]
    by_cases hl : row.length < 4
    · have hfst : (processRows pd today envs dry_run (row :: rest) i).1 =
          row :: (processRows pd today envs dry_run rest (i + 1)).1 := by
        simp only [processRows]
        rcases hp : processRows pd today envs dry_run rest (i + 1) with ⟨a, b, c, t⟩
        rw [if_pos hl]
      rw [hfst]
      cases k with
      | zero =>
        have hnd : ¬ isDue pd today row := fun hdue => by
          have := hdue.1
          omega
        simp [hnd]
      | succ k' =>
        simp only [List.getElem?_cons_succ]
        exact htail k'
    · cases hpd : pd (row.getD 0 "") with
      | none =>
        have hfst : (processRows pd today envs dry_run (row :: rest) i).1 =
            row :: (processRows pd today envs dry_run rest (i + 1)).1 := by
          simp only [processRows]
          rcases hp : processRows pd today envs dry_run rest (i + 1) with ⟨a, b, c, t⟩
          rw [if_neg hl, hpd]
        rw [hfst]
        cases k with
        | zero =>
          have hnd : ¬ isDue pd today row := fun hdue => by
            have := hdue.2.1
            rw [hpd] at this
            exact Option.noConfusion this
          simp [hnd]
        | succ k' =>
          simp only [List.getElem?_cons_succ]
          exact htail k'
      | some d =>
        by_cases hc : row.getD 3 "" = "Post Now" ∧ d = today
        · have hfst : (processRows pd today envs dry_run (row :: rest) i).1 =
              row.set 3 (safe_publish (envs i) (row.getD 1 "") (row.getD 2 "")
                (i + 1) dry_run).status ::
                (processRows pd today envs dry_run rest (i + 1)).1 := by
            simp only [processRows]
            rcases hp : processRows pd today envs dry_run rest (i + 1) with ⟨a, b, c, t⟩
            rw [if_neg hl, hpd]
            dsimp only
            rw [if_pos hc]
          rw [hfst]
          cases k with
          | zero =>
            have hdue : isDue pd today row := ⟨by omega, by rw [hpd, hc.2], hc.1⟩
            simp [hdue]
          | succ k' =>
            simp only [List.getElem?_cons_succ]
            exact htail k'
        · have hfst : (processRows pd today envs dry_run (row :: rest) i).1 =
              row :: (processRows pd today envs dry_run rest (i + 1)).1 := by
            simp only [processRows]
            rcases hp : processRows pd today envs dry_run rest (i + 1) with ⟨a, b, c, t⟩
            rw [if_neg hl, hpd]
            dsimp only
            rw [if_neg hc]
          rw [hfst]
          cases k with
          | zero =>
            have hnd : ¬ isDue pd today row := fun hdue => by
              have h2 := hdue.2.1
              rw [hpd] at h2
              exact hc ⟨hdue.2.2, Option.some.inj h2⟩
            simp [hnd]
          | succ k' =>
            simp only [List.getElem?_cons_succ]
            exact htail k'

theorem auto_eq (pd : String → Option Nat) (today : Nat) (envs : Nat → TwitterEnv)
    (dry_run : Bool) (rows : List (List String)) :
    auto_schedule_publish pd today envs dry_run rows =
      if (validate_content_calendar pd rows).1.isEmpty = true then
        { store := (processRows pd today envs dry_run rows 1).1,
          success := (processRows pd today envs dry_run rows 1).2.1,
          errorsLog := (processRows pd today envs dry_run rows 1).2.2.1,
          trace := (processRows pd today envs dry_run rows 1).2.2.2,
          blocked := false }
      else { store := rows, success := [], errorsLog := [], trace := [], blocked := true } :=
  rfl

theorem isEmpty_false_of_ne_nil {α : Type} {l : List α} (h : l ≠ []) : l.isEmpty = false := by
  cases l with
  | nil => exact absurd rfl h
  | cons x xs => rfl

/-! Lemmas about triple-pipe splitting, for the split/re-join claim. -/

theorem startsTP_iff {l : List Char} : startsTP l = true ↔ ∃ t, l = '|' :: '|' :: '|' :: t := by
  rw [startsTP, decide_eq_true_eq]
  constructor
  · intro h
    refine ⟨l.drop 3, ?_⟩
    conv_lhs => rw [← List.take_append_drop 3 l]
    rw [h]
    rfl
  · rintro ⟨t, rfl⟩
    rfl

theorem startsTP_sep (t : List Char) : startsTP ('|' :: '|' :: '|' :: t) = true :=
  startsTP_iff.mpr ⟨t, rfl⟩

theorem hasTP_cons (c : Char) (l : List Char) :
    hasTP (c :: l) = (startsTP (c :: l) || hasTP l) := rfl

theorem hasTP_of_startsTP {l : List Char} (h : startsTP l = true) : hasTP l = true := by
  cases l with
  | nil => exact absurd h (by decide)
  | cons c cs => rw [hasTP_cons, h, Bool.true_or]

theorem hasTP_append_right (a : List Char) {b : List Char} (h : hasTP b = true) :
    hasTP (a ++ b) = true := by
  induction a with
  | nil => simpa using h
  | cons x a ih =>
    rw [List.cons_append, hasTP_cons, ih, Bool.or_true]

theorem hasTP_append_left {a : List Char} (b : List Char) (h : hasTP a = true) :
    hasTP (a ++ b) = true := by
  induction a with
  | nil => exact absurd h (by decide)
  | cons x a ih =>
    rw [hasTP_cons, Bool.or_eq_true] at h
    rcases h with h | h
    · rcases startsTP_iff.mp h with ⟨t, heq⟩
      have h2 : (x :: a) ++ b = '|' :: '|' :: '|' :: (t ++ b) := by
        rw [heq]
        rfl
      rw [h2]
      exact hasTP_of_startsTP (startsTP_sep (t ++ b))
    · rw [List.cons_append, hasTP_cons, ih h, Bool.or_true]

theorem splitTP_ne_nil : ∀ l : List Char, splitTriplePipe l ≠ [] := by
  intro l
  induction l using splitTriplePipe.induct with
  | case1 rest ih => simp [splitTriplePipe]
  | case2 c rest hneg hnil ih => simp [splitTriplePipe, hnil]
  | case3 c rest hneg p ps hps ih => simp [splitTriplePipe, hps]
  | case4 => simp [splitTriplePipe]

theorem startsTP_false_of_neg (c : Char) (rest : List Char)
    (hneg : ∀ t, c = '|' → rest = '|' :: '|' :: t → False) :
    startsTP (c :: rest) = false := by
  cases hs : startsTP (c :: rest) with
  | false => rfl
  | true =>
    exfalso
    rcases startsTP_iff.mp hs with ⟨t, heq⟩
    injection heq with h1 h2
    exact hneg t h1 h2

theorem splitTP_cons_eq (c : Char) (rest : List Char) (h : startsTP (c :: rest) = false) :
    splitTriplePipe (c :: rest) =
      match splitTriplePipe rest with
      | [] => [[c]]
      | p :: ps => (c :: p) :: ps := by
  rw [splitTriplePipe.eq_def]
  split
  · rename_i r heq
    rw [heq, startsTP_sep] at h
    exact absurd h (by decide)
  · rename_i c2 rest2 hne2 heq
    injection heq with h1 h2
    subst h1
    subst h2
    rfl
  · rename_i heq
    exact absurd heq (by simp)

theorem splitTP_head_decomp :
    ∀ (l : List Char) (q : List Char) (qs : List (List Char)),
    splitTriplePipe l = q :: qs → ∃ suf, l = q ++ suf := by
  intro l
  induction l using splitTriplePipe.induct with
  | case1 rest ih =>
    intro q qs h
    simp only [splitTriplePipe] at h
    injection h with h1 h2
    rw [← h1]
    exact ⟨_, rfl⟩
  | case2 c rest hneg hnil ih =>
    intro q qs h
    exact absurd hnil (splitTP_ne_nil rest)
  | case3 c rest hneg p ps hps ih =>
    intro q qs h
    rw [splitTP_cons_eq c rest (startsTP_false_of_neg c rest hneg), hps] at h
    injection h with h1 h2
    obtain ⟨suf, hsuf⟩ := ih p ps hps
    rw [← h1]
    exact ⟨suf, by rw [hsuf]; rfl⟩
  | case4 =>
    intro q qs h
    simp only [splitTriplePipe] at h
    injection h with h1 h2
    rw [← h1]
    exact ⟨[], rfl⟩

theorem splitTP_parts_noTP :
    ∀ (l : List Char), ∀ p ∈ splitTriplePipe l, hasTP p = false := by
  intro l
  induction l using splitTriplePipe.induct with
  | case1 rest ih =>
    intro p hp
    simp only [splitTriplePipe] at hp
    rcases List.mem_cons.mp hp with h | h
    · subst h
      rfl
    · exact ih p h
  | case2 c rest hneg hnil ih =>
    intro p hp
    exact absurd hnil (splitTP_ne_nil rest)
  | case3 c rest hneg p0 ps hps ih =>
    intro p hp
    rw [splitTP_cons_eq c rest (startsTP_false_of_neg c rest hneg), hps] at hp
    rcases List.mem_cons.mp hp with h | h
    · subst h
      have hp0 : hasTP p0 = false := ih p0 (by rw [hps]; exact List.mem_cons_self _ _)
      have hst : startsTP (c :: p0) = false := by
        cases hs : startsTP (c :: p0) with
        | false => rfl
        | true =>
          exfalso
          rcases startsTP_iff.mp hs with ⟨t, heq⟩
          injection heq with h1 h2
          obtain ⟨suf, hsuf⟩ := splitTP_head_decomp rest p0 ps hps
          exact hneg (t ++ suf) h1 (by rw [hsuf, h2]; rfl)
      rw [hasTP_cons, hst, hp0]
      rfl
    · exact ih p (by rw [hps]; exact List.mem_cons_of_mem _ h)
  | case4 =>
    intro p hp
    simp only [splitTriplePipe, List.mem_singleton] at hp
    subst hp
    rfl

theorem splitTP_single : ∀ (l : List Char), hasTP l = false → splitTriplePipe l = [l] := by
  intro l
  induction l using splitTriplePipe.induct with
  | case1 rest ih =>
    intro h
    have ht := hasTP_of_startsTP (startsTP_sep rest)
    rw [ht] at h
    exact absurd h (by decide)
  | case2 c rest hneg hnil ih =>
    intro h
    exact absurd hnil (splitTP_ne_nil rest)
  | case3 c rest hneg p ps hps ih =>
    intro h
    have hst := startsTP_false_of_neg c rest hneg
    have hr : hasTP rest = false := by
      rw [hasTP_cons, hst, Bool.false_or] at h
      exact h
    have hsr := ih hr
    rw [hps] at hsr
    injection hsr with h1 h2
    rw [splitTP_cons_eq c rest hst, hps, h1, h2]
  | case4 =>
    intro h
    rfl

theorem splitTP_boundary :
    ∀ (p rest : List Char), hasTP p = false → endsPipe p = false →
    splitTriplePipe (p ++ '|' :: '|' :: '|' :: rest) = p :: splitTriplePipe rest := by
  intro p
  induction p with
  | nil =>
    intro rest _ _
    rfl
  | cons c p ih =>
    intro rest h hend
    have hp : hasTP p = false := by
      rw [hasTP_cons, Bool.or_eq_false_iff] at h
      exact h.2
    have hstp : startsTP (c :: p) = false := by
      rw [hasTP_cons, Bool.or_eq_false_iff] at h
      exact h.1
    have hendp : endsPipe p = false := by
      cases p with
      | nil => rfl
      | cons d p' => simpa [endsPipe, List.getLast?_cons_cons] using hend
    have hst2 : startsTP (c :: (p ++ '|' :: '|' :: '|' :: rest)) = false := by
      cases hs : startsTP (c :: (p ++ '|' :: '|' :: '|' :: rest)) with
      | false => rfl
      | true =>
        exfalso
        rcases startsTP_iff.mp hs with ⟨t, heq⟩
        injection heq with h1 h2
        cases p with
        | nil =>
          subst h1
          simp [endsPipe] at hend
        | cons d p' =>
          injection h2 with h3 h4
          cases p' with
          | nil =>
            subst h3
            simp [endsPipe] at hend
          | cons e p'' =>
            injection h4 with h5 h6
            subst h1
            subst h3
            subst h5
            rw [hasTP_cons, startsTP_sep] at h
            exact absurd h (by simp)
    rw [List.cons_append, splitTP_cons_eq c _ hst2, ih rest hp hendp]

theorem stripRight_decomp : ∀ l : List Char, ∃ suf, l = stripRight l ++ suf := by
  intro l
  induction l with
  | nil => exact ⟨[], rfl⟩
  | cons c rest ih =>
    rcases h : stripRight rest with _ | ⟨x, xs⟩
    · by_cases hw : c.isWhitespace
      · refine ⟨c :: rest, ?_⟩
        simp only [stripRight, h, if_pos hw]
        rfl
      · obtain ⟨suf, hsuf⟩ := ih
        rw [h] at hsuf
        refine ⟨rest, ?_⟩
        simp only [stripRight, h, if_neg hw]
        rfl
    · obtain ⟨suf, hsuf⟩ := ih
      rw [h] at hsuf
      refine ⟨suf, ?_⟩
      simp only [stripRight, h]
      rw [hsuf]
      rfl

theorem stripRight_cons_cons (c : Char) (rest : List Char) (x : Char) (xs : List Char)
    (h : stripRight rest = x :: xs) : stripRight (c :: rest) = c :: x :: xs := by
  simp only [stripRight, h]

theorem stripRight_idem : ∀ l : List Char, stripRight (stripRight l) = stripRight l := by
  intro l
  induction l with
  | nil => rfl
  | cons c rest ih =>
    rcases h : stripRight rest with _ | ⟨x, xs⟩
    · by_cases hw : c.isWhitespace
      · simp only [stripRight, h, if_pos hw]
      · simp only [stripRight, h, if_neg hw]
    · rw [h] at ih
      rw [stripRight_cons_cons c rest x xs h]
      exact stripRight_cons_cons c (x :: xs) x xs ih

theorem dropWhile_ws_head : ∀ l : List Char,
    l.dropWhile Char.isWhitespace = [] ∨
    ∃ c t, l.dropWhile Char.isWhitespace = c :: t ∧ c.isWhitespace = false := by
  intro l
  induction l with
  | nil => exact Or.inl rfl
  | cons c rest ih =>
    by_cases hw : c.isWhitespace = true
    · rw [List.dropWhile_cons, if_pos hw]
      exact ih
    · rw [List.dropWhile_cons, if_neg hw]
      exact Or.inr ⟨c, rest, rfl, by simpa using hw⟩

theorem pyStripL_idem : ∀ l : List Char, pyStripL (pyStripL l) = pyStripL l := by
  intro l
  unfold pyStripL
  rcases h : stripRight (l.dropWhile Char.isWhitespace) with _ | ⟨c, t⟩
  · rfl
  · have hd : c.isWhitespace = false := by
      rcases dropWhile_ws_head l with h0 | ⟨c', t', h1, h2⟩
      · rw [h0] at h
        exact List.noConfusion h
      · obtain ⟨suf, hsuf⟩ := stripRight_decomp (l.dropWhile Char.isWhitespace)
        rw [h, h1] at hsuf
        injection hsuf with hc _
        rw [hc] at h2
        exact h2
    have hdw : (c :: t).dropWhile Char.isWhitespace = c :: t := by
      rw [List.dropWhile_cons, if_neg (by simp [hd])]
    rw [hdw, ← h]
    exact stripRight_idem _

theorem hasTP_pyStripL {l : List Char} (h : hasTP l = false) : hasTP (pyStripL l) = false := by
  cases hq : hasTP (pyStripL l) with
  | false => rfl
  | true =>
    exfalso
    unfold pyStripL at hq
    obtain ⟨suf, hsuf⟩ := stripRight_decomp (l.dropWhile Char.isWhitespace)
    have h1 : hasTP (l.dropWhile Char.isWhitespace) = true := by
      rw [hsuf]
      exact hasTP_append_left _ hq
    have h2 : hasTP l = true := by
      conv_lhs => rw [← List.takeWhile_append_dropWhile (p := Char.isWhitespace) (l := l)]
      exact hasTP_append_right _ h1
    rw [h2] at h
    exact absurd h (by decide)

theorem splitThreadL_parts (l : List Char) :
    ∀ p ∈ splitThreadL l, hasTP p = false ∧ pyStripL p = p ∧ p ≠ [] := by
  intro p hp
  unfold splitThreadL at hp
  rw [List.mem_filter] at hp
  obtain ⟨hmem, hne⟩ := hp
  rw [List.mem_map] at hmem
  obtain ⟨q, hq, rfl⟩ := hmem
  refine ⟨hasTP_pyStripL (splitTP_parts_noTP l q hq), pyStripL_idem q, ?_⟩
  simpa using hne

theorem c9_core : ∀ ps : List (List Char),
    (∀ p ∈ ps, hasTP p = false ∧ pyStripL p = p ∧ p ≠ [] ∧ endsPipe p = false) →
    splitThreadL (joinCh ps) = ps := by
  intro ps
  induction ps with
  | nil => intro _; rfl
  | cons p ps ih =>
    intro hfacts
    obtain ⟨hTP, hstrip, hne, hend⟩ := hfacts p (List.mem_cons_self _ _)
    cases ps with
    | nil =>
      show splitThreadL p = [p]
      unfold splitThreadL
      rw [splitTP_single p hTP]
      simp [hstrip, hne]
    | cons q ps' =>
      have hjoin : joinCh (p :: q :: ps') = p ++ '|' :: '|' :: '|' :: joinCh (q :: ps') := rfl
      rw [hjoin]
      have ihx := ih (fun r hr => hfacts r (List.mem_cons_of_mem _ hr))
      unfold splitThreadL
      rw [splitTP_boundary p _ hTP hend]
      unfold splitThreadL at ihx
      simp [hstrip, hne]
      simpa using ihx

theorem toList_mk (l : List Char) : (String.mk l).toList = l := rfl

theorem toList_append (a b : String) : (a ++ b).toList = a.toList ++ b.toList := by
  cases a
  cases b
  rfl

theorem pyJoin_toList : ∀ ps : List (List Char),
    (pyJoin "|||" (ps.map (fun l => (⟨l⟩ : String)))).toList = joinCh ps := by
  intro ps
  induction ps with
  | nil => rfl
  | cons p ps ih =>
    cases ps with
    | nil => rfl
    | cons q ps' =>
      have h1 : pyJoin "|||" ((p :: q :: ps').map (fun l => (⟨l⟩ : String))) =
          (⟨p⟩ : String) ++ "|||" ++ pyJoin "|||" ((q :: ps').map (fun l => (⟨l⟩ : String))) :=
        rfl
      rw [h1, toList_append, toList_append, ih, List.append_assoc]
      rfl

/-! Claim theorems. -/

/-- C2: for every platform and content, publishing with the dry-run
flag set returns the `"Dry Run ✅"` outcome immediately, appends
nothing to either ledger, and performs no adapter call whatsoever (no
client initialisation, no post, no reply); the same holds for the
dry-run branches of `publish_tweet` and `publish_thread` themselves. -/
theorem c2_dry_run_never_contacts_adapter (env : TwitterEnv) (platform content : String)
    (row_index : Nat) (parts : List String) :
    safe_publish env platform content row_index true =
      { status := "Dry Run ✅", success := [], errors := [], trace := [] } ∧
    publish_tweet env content true = (("dry_run", none), []) ∧
    publish_thread env parts true =
      ((List.replicate parts.length "dry_run", .noneP), []) :=
  ⟨rfl, rfl, rfl⟩

/-- C8: for every platform, content and dry-run flag, `safe_publish` is
a total function (the embedding of "never raises past its boundary")
whose returned status is always exactly one of the three normalized
strings `"Posted ✅"`, `"Dry Run ✅"`, `"Error ❌ (will retry)"`. -/
theorem c8_safe_publish_total_and_normalized (env : TwitterEnv)
    (platform content : String) (row_index : Nat) (dry_run : Bool) :
    (safe_publish env platform content row_index dry_run).status = "Posted ✅" ∨
    (safe_publish env platform content row_index dry_run).status = "Dry Run ✅" ∨
    (safe_publish env platform content row_index dry_run).status = "Error ❌ (will retry)" := by
  unfold safe_publish
  dsimp only
  repeat' split
  all_goals simp

/-- C1 counterexample: a `safe_publish` call that ends in the DryRun
outcome appends no SuccessRecord at all (the dry-run branch returns
before `log_success`), refuting the claim that a DryRun outcome appends
exactly one SuccessRecord. -/
theorem c1_dry_run_appends_nothing_counterexample :
    (safe_publish ⟨true, fun _ => .ok "1"⟩ "X Tweet" "hello" 2 true).status = "Dry Run ✅" ∧
    (safe_publish ⟨true, fun _ => .ok "1"⟩ "X Tweet" "hello" 2 true).success = [] := by
  decide

/-- C1 amended: a call ending in the Success outcome appends exactly
one SuccessRecord and no ErrorRecord; a call ending in the Failure
outcome appends exactly one ErrorRecord and no SuccessRecord; a call
ending in the DryRun outcome appends nothing to either ledger. -/
theorem c1_ledger_appends (env : TwitterEnv) (platform content : String)
    (row_index : Nat) (dry_run : Bool) :
    ((safe_publish env platform content row_index dry_run).status = "Posted ✅" →
      (safe_publish env platform content row_index dry_run).success.length = 1 ∧
      (safe_publish env platform content row_index dry_run).errors = []) ∧
    ((safe_publish env platform content row_index dry_run).status = "Dry Run ✅" →
      (safe_publish env platform content row_index dry_run).success = [] ∧
      (safe_publish env platform content row_index dry_run).errors = []) ∧
    ((safe_publish env platform content row_index dry_run).status = "Error ❌ (will retry)" →
      (safe_publish env platform content row_index dry_run).errors.length = 1 ∧
      (safe_publish env platform content row_index dry_run).success = []) := by
  unfold safe_publish
  dsimp only
  repeat' split
  all_goals refine ⟨fun h => ?_, fun h => ?_, fun h => ?_⟩ <;>
    first
      | exact ⟨rfl, rfl⟩
      | simp at h

/-- C1 amended, witness: a concrete live tweet publish ends `"Posted ✅"`
and appends exactly one SuccessRecord and no ErrorRecord. -/
theorem c1_ledger_appends_witness :
    (safe_publish ⟨true, fun _ => .ok "1"⟩ "X Tweet" "hi" 2 false).success.length = 1 ∧
    (safe_publish ⟨true, fun _ => .ok "1"⟩ "X Tweet" "hi" 2 false).errors = [] :=
  (c1_ledger_appends ⟨true, fun _ => .ok "1"⟩ "X Tweet" "hi" 2 false).1 (by decide)

/-- C10: in dry-run mode `safe_publish` returns the dry-run effect for
every platform value and every content string — including a platform
outside the supported set and thread content that is empty after
splitting — because the dry-run branch returns before those checks;
in live mode both of those failures are reachable and produce the
error outcome with the corresponding ErrorRecord. -/
theorem c10_dry_run_precedes_failure_checks (env : TwitterEnv)
    (platform content bad tcontent : String) (row_index : Nat)
    (hbad : bad ∉ (["X Tweet", "X Thread"] : List String))
    (hempty : splitThread tcontent = []) :
    safe_publish env platform content row_index true =
      { status := "Dry Run ✅", success := [], errors := [], trace := [] } ∧
    safe_publish env bad content row_index true =
      { status := "Dry Run ✅", success := [], errors := [], trace := [] } ∧
    safe_publish env "X Thread" tcontent row_index true =
      { status := "Dry Run ✅", success := [], errors := [], trace := [] } ∧
    safe_publish env bad content row_index false =
      { status := "Error ❌ (will retry)", success := [],
        errors := [log_error bad content ("Unsupported platform: " ++ bad)], trace := [] } ∧
    safe_publish env "X Thread" tcontent row_index false =
      { status := "Error ❌ (will retry)", success := [],
        errors := [log_error "X Thread" tcontent "Thread content is empty after splitting"],
        trace := [] } := by
  have hbad1 : bad ≠ "X Thread" := by
    intro h
    exact hbad (by simp [h])
  have hbad2 : bad ≠ "X Tweet" := by
    intro h
    exact hbad (by simp [h])
  refine ⟨rfl, rfl, rfl, ?_, ?_⟩
  · unfold safe_publish
    simp [hbad1, hbad2]
  · unfold safe_publish
    simp [hempty]

/-- C10 witness at a concrete unsupported platform and a concrete
whitespace-only thread content. -/
theorem c10_dry_run_precedes_failure_checks_witness :
    safe_publish ⟨true, fun _ => .ok "1"⟩ "Facebook" "w" 2 true =
      { status := "Dry Run ✅", success := [], errors := [], trace := [] } ∧
    safe_publish ⟨true, fun _ => .ok "1"⟩ "Facebook" "w" 2 true =
      { status := "Dry Run ✅", success := [], errors := [], trace := [] } ∧
    safe_publish ⟨true, fun _ => .ok "1"⟩ "X Thread" " ||| " 2 true =
      { status := "Dry Run ✅", success := [], errors := [], trace := [] } ∧
    safe_publish ⟨true, fun _ => .ok "1"⟩ "Facebook" "w" 2 false =
      { status := "Error ❌ (will retry)", success := [],
        errors := [log_error "Facebook" "w" ("Unsupported platform: " ++ "Facebook")],
        trace := [] } ∧
    safe_publish ⟨true, fun _ => .ok "1"⟩ "X Thread" " ||| " 2 false =
      { status := "Error ❌ (will retry)", success := [],
        errors := [log_error "X Thread" " ||| " "Thread content is empty after splitting"],
        trace := [] } :=
  c10_dry_run_precedes_failure_checks ⟨true, fun _ => .ok "1"⟩ "Facebook" "w" "Facebook"
    " ||| " 2 (by decide) (by decide)

/-- C3: content longer than 280 characters is posted as exactly 280
characters — the first 277 characters of the original followed by the
three-character `"..."` marker — while content of length at most 280 is
posted unmodified; the text handed to the single-post adapter call is
exactly the truncation of the input, and the texts handed to the
thread adapter calls are the truncations of the respective parts
(independently, one prefix part per attempted call). -/
theorem c3_truncation_to_280 (c : String) (parts : List String) (env : TwitterEnv)
    (h : env.clientOk = true) :
    (280 < c.length → truncate c = pyTake c 277 ++ "..." ∧ (truncate c).length = 280) ∧
    (c.length ≤ 280 → truncate c = c) ∧
    postedTexts (publish_tweet env c false).2 = [truncate c] ∧
    ∃ m, m ≤ parts.length ∧
      postedTexts (publish_thread env parts false).2 = (parts.take m).map truncate := by
  refine ⟨fun hl => truncate_long hl, fun hs => truncate_short hs, ?_,
    publish_thread_trace_texts env parts h⟩
  rw [publish_tweet_trace env c h]
  rfl

/-- C3 witness at a 290-character content, a short content, and a
concrete two-part thread. -/
theorem c3_truncation_to_280_witness :
    (truncate ⟨List.replicate 290 'a'⟩ = pyTake ⟨List.replicate 290 'a'⟩ 277 ++ "..." ∧
      (truncate (⟨List.replicate 290 'a'⟩ : String)).length = 280) ∧
    truncate "hi" = "hi" ∧
    postedTexts (publish_tweet ⟨true, fun _ => .ok "1"⟩ "hi" false).2 = [truncate "hi"] ∧
    ∃ m, m ≤ (["a", "b"] : List String).length ∧
      postedTexts (publish_thread ⟨true, fun _ => .ok "1"⟩ ["a", "b"] false).2 =
        ((["a", "b"] : List String).take m).map truncate :=
  ⟨(c3_truncation_to_280 ⟨List.replicate 290 'a'⟩ ["a", "b"] ⟨true, fun _ => .ok "1"⟩ rfl).1
      (by rw [length_mk, List.length_replicate]; omega),
   (c3_truncation_to_280 "hi" ["a", "b"] ⟨true, fun _ => .ok "1"⟩ rfl).2.1 (by decide),
   (c3_truncation_to_280 "hi" ["a", "b"] ⟨true, fun _ => .ok "1"⟩ rfl).2.2.1,
   (c3_truncation_to_280 "hi" ["a", "b"] ⟨true, fun _ => .ok "1"⟩ rfl).2.2.2⟩

/-- C7: in live mode, when every adapter call for a non-empty thread
succeeds (call `j` returning id `idOf j`), the thread is posted exactly
along `chainTrace`: the first part standalone, each later part after
one sleep as a reply to the id of its immediate predecessor (not the
root), each part truncated independently, and the returned id sequence
is the ids in posting order. -/
theorem c7_thread_chained_replies (env : TwitterEnv) (parts : List String)
    (idOf : Nat → String) (_hne : parts ≠ []) (hco : env.clientOk = true)
    (hok : ∀ j, j < parts.length → env.postResult j = .ok (idOf j)) :
    publish_thread env parts false =
      ((List.replicate parts.length "success",
        .ids ((List.range parts.length).map idOf)),
       .clientInit :: chainTrace idOf parts 0) := by
  have h := threadLoop_ok env idOf parts 0 none (fun j hj => by simpa using hok j hj)
    (fun hi => absurd rfl hi)
  unfold publish_thread
  rw [h]
  simp [hco]

/-- C7 witness: a concrete two-part thread posted through a concrete
always-succeeding adapter. -/
theorem c7_thread_chained_replies_witness :
    publish_thread ⟨true, fun j => .ok (if j = 0 then "x" else "y")⟩ ["a", "b"] false =
      ((List.replicate (["a", "b"] : List String).length "success",
        .ids ((List.range (["a", "b"] : List String).length).map
          (fun j => if j = 0 then "x" else "y"))),
       .clientInit :: chainTrace (fun j => if j = 0 then "x" else "y") ["a", "b"] 0) :=
  c7_thread_chained_replies ⟨true, fun j => .ok (if j = 0 then "x" else "y")⟩ ["a", "b"]
    (fun j => if j = 0 then "x" else "y") (by decide) rfl (fun j _ => rfl)

/-- C4: when the (k+1)-st adapter call of a live thread publish fails
(0-based call index k), no part after it is attempted (the trace stops
at the failed call), the result is the Failure pair carrying the
underlying error text with the already-returned ids discarded from the
result, `safe_publish` appends exactly one ErrorRecord and no
SuccessRecord, and an auto-schedule run over a due row with that
content persists the failure label into the row's status field. -/
theorem c4_thread_failure_bookkeeping (env : TwitterEnv) (content d : String)
    (idOf : Nat → String) (e : String) (k : Nat) (pd : String → Option Nat) (today : Nat)
    (row_index : Nat)
    (hco : env.clientOk = true)
    (hk : k < (splitThread content).length)
    (hok : ∀ j, j < k → env.postResult j = .ok (idOf j))
    (he : env.postResult k = .error e)
    (hpd : pd d = some today)
    (hcs : pyStrip content ≠ "") :
    publish_thread env (splitThread content) false =
      ((["error"], .err e),
       .clientInit :: chainTrace idOf ((splitThread content).take (k + 1)) 0) ∧
    safe_publish env "X Thread" content row_index false =
      { status := "Error ❌ (will retry)", success := [],
        errors := [log_error "X Thread" content ("Thread posting failed: " ++ e)],
        trace := .clientInit :: chainTrace idOf ((splitThread content).take (k + 1)) 0 } ∧
    auto_schedule_publish pd today (fun _ => env) false [[d, "X Thread", content, "Post Now"]] =
      { store := [[d, "X Thread", content, "Error ❌ (will retry)"]], success := [],
        errorsLog := [log_error "X Thread" content ("Thread posting failed: " ++ e)],
        trace := .clientInit :: chainTrace idOf ((splitThread content).take (k + 1)) 0,
        blocked := false } := by
  have hne : splitThread content ≠ [] := by
    intro h0
    rw [h0] at hk
    simp at hk
  have hie : (splitThread content).isEmpty = false := by
    rcases hq : splitThread content with _ | ⟨p, ps⟩
    · exact absurd hq hne
    · rfl
  have hpt := publish_thread_fail env (splitThread content) idOf e k hco hk hok he
  have hsp : ∀ ri : Nat, safe_publish env "X Thread" content ri false =
      { status := "Error ❌ (will retry)", success := [],
        errors := [log_error "X Thread" content ("Thread posting failed: " ++ e)],
        trace := .clientInit :: chainTrace idOf ((splitThread content).take (k + 1)) 0 } := by
    intro ri
    unfold safe_publish
    rw [if_neg (by simp), if_pos rfl]
    dsimp only
    rw [hie]
    rw [if_neg (by simp)]
    rw [hpt]
    rfl
  refine ⟨hpt, hsp row_index, ?_⟩
  have herr : validate_content_calendar pd [[d, "X Thread", content, "Post Now"]] =
      ([], partWarnings 2 (splitThread content) 0) := by
    unfold validate_content_calendar validateAux validateRow
    rw [if_neg (by simp)]
    dsimp only [List.getD_cons_zero, List.getD_cons_succ]
    rw [hpd]
    rw [if_pos (by decide)]
    rw [if_neg hcs]
    rw [if_neg (by simp)]
    rw [if_pos rfl]
    rw [hie]
    simp [validateAux]
  have hpr : processRows pd today (fun _ => env) false
      [[d, "X Thread", content, "Post Now"]] 1 =
      ([[d, "X Thread", content, "Error ❌ (will retry)"]], [],
       [log_error "X Thread" content ("Thread posting failed: " ++ e)],
       .clientInit :: chainTrace idOf ((splitThread content).take (k + 1)) 0) := by
    simp only [processRows]
    dsimp only [List.getD_cons_zero, List.getD_cons_succ]
    rw [if_neg (by simp)]
    rw [hpd]
    dsimp only
    rw [if_pos ⟨rfl, rfl⟩]
    rw [hsp]
    simp [List.set]
  unfold auto_schedule_publish
  rw [herr]
  dsimp only
  rw [hpr]
  simp

/-- C4 witness: a concrete three-part thread whose second adapter call
fails, run through the full scheduler over a one-row calendar. -/
theorem c4_thread_failure_bookkeeping_witness :
    publish_thread ⟨true, fun j => if j = 1 then .error "boom" else .ok "1"⟩
      (splitThread "a|||b|||c") false =
      ((["error"], .err "boom"),
       .clientInit ::
         chainTrace (fun _ => "1") ((splitThread "a|||b|||c").take (1 + 1)) 0) ∧
    safe_publish ⟨true, fun j => if j = 1 then .error "boom" else .ok "1"⟩
      "X Thread" "a|||b|||c" 2 false =
      { status := "Error ❌ (will retry)", success := [],
        errors := [log_error "X Thread" "a|||b|||c" ("Thread posting failed: " ++ "boom")],
        trace := .clientInit ::
          chainTrace (fun _ => "1") ((splitThread "a|||b|||c").take (1 + 1)) 0 } ∧
    auto_schedule_publish (fun _ => some 0) 0
      (fun _ => ⟨true, fun j => if j = 1 then .error "boom" else .ok "1"⟩) false
      [["2023-12-15", "X Thread", "a|||b|||c", "Post Now"]] =
      { store := [["2023-12-15", "X Thread", "a|||b|||c", "Error ❌ (will retry)"]],
        success := [],
        errorsLog := [log_error "X Thread" "a|||b|||c" ("Thread posting failed: " ++ "boom")],
        trace := .clientInit ::
          chainTrace (fun _ => "1") ((splitThread "a|||b|||c").take (1 + 1)) 0,
        blocked := false } :=
  c4_thread_failure_bookkeeping ⟨true, fun j => if j = 1 then .error "boom" else .ok "1"⟩
    "a|||b|||c" "2023-12-15" (fun _ => "1") "boom" 1 (fun _ => some 0) 0 2 rfl (by decide)
    (fun j hj => by
      have hj0 : j = 0 := by omega
      subst hj0
      rfl)
    rfl rfl (by decide)

/-- C5: if validation produces at least one error, the run terminates
before any publish attempt and before any mutation: the persisted store
equals the input rows, both ledgers receive nothing, and no adapter
call happens; if validation produces no errors (warnings alone never
block), the run proceeds past the validation gate. -/
theorem c5_validation_errors_block_run (pd : String → Option Nat) (today : Nat)
    (envs : Nat → TwitterEnv) (dry_run : Bool) (rows : List (List String)) :
    ((validate_content_calendar pd rows).1 ≠ [] →
      auto_schedule_publish pd today envs dry_run rows =
        { store := rows, success := [], errorsLog := [], trace := [], blocked := true }) ∧
    ((validate_content_calendar pd rows).1 = [] →
      (auto_schedule_publish pd today envs dry_run rows).blocked = false) := by
  constructor
  · intro h
    rw [auto_eq, if_neg (by rw [isEmpty_false_of_ne_nil h]; simp)]
  · intro h
    rw [auto_eq, if_pos (by rw [h]; rfl)]

/-- C5 witness: a one-row calendar whose date fails to parse blocks the
run with nothing mutated; a parseable calendar with no errors
proceeds. -/
theorem c5_validation_errors_block_run_witness :
    auto_schedule_publish (fun _ => none) 0 (fun _ => ⟨true, fun _ => .ok "1"⟩) true
      [["15-12-2023", "X Tweet", "hi", "Post Now"]] =
      { store := [["15-12-2023", "X Tweet", "hi", "Post Now"]], success := [],
        errorsLog := [], trace := [], blocked := true } ∧
    (auto_schedule_publish (fun _ => some 1) 1 (fun _ => ⟨true, fun _ => .ok "1"⟩) true
      [["2023-12-15", "X Tweet", "hi", "Done"]]).blocked = false :=
  ⟨(c5_validation_errors_block_run (fun _ => none) 0 (fun _ => ⟨true, fun _ => .ok "1"⟩)
      true [["15-12-2023", "X Tweet", "hi", "Post Now"]]).1 (by decide),
   (c5_validation_errors_block_run (fun _ => some 1) 1 (fun _ => ⟨true, fun _ => .ok "1"⟩)
      true [["2023-12-15", "X Tweet", "hi", "Done"]]).2 (by decide)⟩

/-- C6: over a calendar that validates without errors, every row whose
status is not literally `"Post Now"` or whose planned date does not
parse to today is persisted byte-for-byte unchanged by the run; a due
row is persisted with exactly its status field (index 3) replaced by
the publish outcome and no other field touched. -/
theorem c6_non_due_rows_unchanged (pd : String → Option Nat) (today : Nat)
    (envs : Nat → TwitterEnv) (dry_run : Bool) (rows : List (List String)) (k : Nat)
    (row : List String)
    (hv : (validate_content_calendar pd rows).1 = [])
    (hrow : rows[k]? = some row) :
    (¬ (row.getD 3 "" = "Post Now" ∧ pd (row.getD 0 "") = some today) →
      (auto_schedule_publish pd today envs dry_run rows).store[k]? = some row) ∧
    ((row.getD 3 "" = "Post Now" ∧ pd (row.getD 0 "") = some today) →
      (auto_schedule_publish pd today envs dry_run rows).store[k]? =
        some (row.set 3 (safe_publish (envs (k + 1)) (row.getD 1 "") (row.getD 2 "")
          (k + 2) dry_run).status)) := by
  have hmem : row ∈ rows := List.getElem?_mem hrow
  obtain ⟨h4, dd, hdd⟩ := validateAux_fields pd rows 2 hv row hmem
  have hstore : (auto_schedule_publish pd today envs dry_run rows).store =
      (processRows pd today envs dry_run rows 1).1 := by
    rw [auto_eq, if_pos (by rw [hv]; rfl)]
  rw [hstore, processRows_store pd today envs dry_run rows 1 k, hrow]
  constructor
  · intro hnd
    have hnd2 : ¬ isDue pd today row := fun hdue => hnd ⟨hdue.2.2, hdue.2.1⟩
    simp [hnd2]
  · intro hd
    have hdue : isDue pd today row := ⟨h4, hd.2, hd.1⟩
    rw [show (1 : Nat) + k = k + 1 by omega]
    simp [hdue]

/-- C6 witness on a concrete two-row calendar: the non-due second row
is persisted unchanged and the due first row gets exactly its status
field replaced. -/
theorem c6_non_due_rows_unchanged_witness :
    (auto_schedule_publish (fun s => if s = "d1" then some 5 else some 6) 5
      (fun _ => ⟨true, fun _ => .ok "9"⟩) false
      [["d1", "X Tweet", "hello", "Post Now"], ["d2", "X Tweet", "bye", "Done"]]).store[1]? =
      some ["d2", "X Tweet", "bye", "Done"] ∧
    (auto_schedule_publish (fun s => if s = "d1" then some 5 else some 6) 5
      (fun _ => ⟨true, fun _ => .ok "9"⟩) false
      [["d1", "X Tweet", "hello", "Post Now"], ["d2", "X Tweet", "bye", "Done"]]).store[0]? =
      some ((["d1", "X Tweet", "hello", "Post Now"] : List String).set 3
        (safe_publish (⟨true, fun _ => .ok "9"⟩ : TwitterEnv) "X Tweet" "hello" 2
          false).status) :=
  ⟨(c6_non_due_rows_unchanged (fun s => if s = "d1" then some 5 else some 6) 5
      (fun _ => ⟨true, fun _ => .ok "9"⟩) false
      [["d1", "X Tweet", "hello", "Post Now"], ["d2", "X Tweet", "bye", "Done"]] 1
      ["d2", "X Tweet", "bye", "Done"] (by decide) (by decide)).1 (by decide),
   (c6_non_due_rows_unchanged (fun s => if s = "d1" then some 5 else some 6) 5
      (fun _ => ⟨true, fun _ => .ok "9"⟩) false
      [["d1", "X Tweet", "hello", "Post Now"], ["d2", "X Tweet", "bye", "Done"]] 0
      ["d1", "X Tweet", "hello", "Post Now"] (by decide) (by decide)).2 (by decide)⟩

/-- C9 counterexample: split-then-rejoin-then-split is NOT the
identity in general.  For `"a| ||| b"` the first split yields
`["a|", "b"]`; re-joining gives `"a||||b"`, whose leftmost triple-pipe
occurrence consumes the part's trailing pipe, so the second split
yields `["a", "|b"]` instead. -/
theorem c9_rejoin_counterexample :
    splitThread (pyJoin "|||" (splitThread "a| ||| b")) ≠ splitThread "a| ||| b" := by
  decide

/-- C9 amended: thread splitting is whitespace-insensitive —
`"a ||| b ||| "` and `"a|||b"` split to the same two parts
`["a", "b"]` and validate identically — and splitting an
already-split-and-rejoined content yields the same parts again
provided no part of the first split ends with a pipe character
(without that proviso the property fails, see the counterexample). -/
theorem c9_split_whitespace_and_rejoin :
    splitThread "a ||| b ||| " = ["a", "b"] ∧
    splitThread "a|||b" = ["a", "b"] ∧
    (∀ (pd : String → Option Nat) (i : Nat) (d s : String),
      validateRow pd i [d, "X Thread", "a ||| b ||| ", s] =
        validateRow pd i [d, "X Thread", "a|||b", s]) ∧
    (∀ content : String, (∀ p ∈ splitThread content, endsPipe p.toList = false) →
      splitThread (pyJoin "|||" (splitThread content)) = splitThread content) := by
  refine ⟨by decide, by decide, ?_, ?_⟩
  · intro pd i d s
    rfl
  · intro content hend
    have hps : ∀ p ∈ splitThreadL content.toList,
        hasTP p = false ∧ pyStripL p = p ∧ p ≠ [] ∧ endsPipe p = false := by
      intro p hp
      obtain ⟨h1, h2, h3⟩ := splitThreadL_parts content.toList p hp
      refine ⟨h1, h2, h3, ?_⟩
      have hmem : (⟨p⟩ : String) ∈ splitThread content := by
        unfold splitThread
        exact List.mem_map_of_mem _ hp
      exact hend _ hmem
    have hcore := c9_core (splitThreadL content.toList) hps
    unfold splitThread
    rw [pyJoin_toList (splitThreadL content.toList), hcore]

/-- C9 amended, witness: for `"x|||y"` no part ends with a pipe, and
split-rejoin-split reproduces the parts. -/
theorem c9_split_whitespace_and_rejoin_witness :
    splitThread (pyJoin "|||" (splitThread "x|||y")) = splitThread "x|||y" :=
  c9_split_whitespace_and_rejoin.2.2.2 "x|||y" (by decide)

end SMS

-- quick sanity checks of the primitives (claim-independent)
example : SMS.splitThread "a ||| b ||| " = ["a", "b"] := by decide
example : SMS.splitThread "a|||b" = ["a", "b"] := by decide
example : SMS.pyStrip "  x y " = "x y" := by decide
example : SMS.pyJoin "," ["1", "2"] = "1,2" := by decide
